import Mathlib

/-!
Shallow embedding of the retrieval-and-fallback core of the RAG repository
(src/scraper/scraper.py and src/scraper/api.py), together with theorems
settling the spec claims about it.

Conventions used throughout:
* href attribute values and model identifiers are modelled as `List Char`
  in the HTML-extraction component (the regex work is character-level) and
  as `String` in the enrichment/aggregation components;
* the network is modelled as an explicit oracle: a function from attempt
  number (for the listing fetch loop) or identifier (for detail lookups)
  to the observed outcome (a response with a status code, or a raised
  `requests.RequestException`);
* `time.sleep` calls are modelled by recording the requested delay in an
  instrumentation list that the fetch loop threads through;
* machine floats produced by Python's `/` are modelled as `ℚ`; every value
  divided here is a small integer, so the rational value determines the
  float exactly in the claims at issue.
-/

namespace RAG

/-- First-seen-order deduplication with an accumulator of already seen
elements; `dedupFS [] l` keeps the first occurrence of each element of `l`
and drops later repeats, exactly the `seen`-set loop shape used at
scraper.py lines 152-159 (without that loop's two extra filters, which are
modelled separately in `scrDedup`). -/
def dedupFS {α : Type} [DecidableEq α] (seen : List α) : List α → List α
  | [] => []
  | a :: rest => if a ∈ seen then dedupFS seen rest else a :: dedupFS (a :: seen) rest

/-- Characters allowed anywhere in a slug segment: the regex class
`[A-Za-z0-9_.-]` of `MODEL_HREF_RE` (scraper.py line 25). -/
def isSegChar (c : Char) : Bool :=
  c.isAlphanum || c = '_' || c = '.' || c = '-'

/-- A slug segment per `MODEL_HREF_RE`: non-empty, first character in
`[A-Za-z0-9]`, remaining characters in `[A-Za-z0-9_.-]`. -/
def isSlugSeg : List Char → Bool
  | [] => false
  | c :: cs => c.isAlphanum && cs.all isSegChar

/-- `href.split("?", 1)[0].split("#", 1)[0]` (scraper.py line 135): the part
of the href before the first `?`, then before the first `#`. -/
def stripQF (h : List Char) : List Char :=
  (h.takeWhile (fun c => c ≠ '?')).takeWhile (fun c => c ≠ '#')

/-- Python's `$` anchor (no `re.MULTILINE`) also matches just before one
newline at the very end of the string; `chopNL` removes that single
trailing newline so that `matchHref` agrees with `re.match` on such
inputs.  The captured groups are unchanged by this. -/
def chopNL : List Char → List Char
  | [] => []
  | [c] => if c = '\n' then [] else [c]
  | c :: rest => c :: chopNL rest

/-- `MODEL_HREF_RE.match(href)` (scraper.py lines 25, 137): the href must be
`/org/name` where both segments satisfy the slug grammar.  Because the
segment character class excludes `/`, the organization segment is exactly
the run of characters before the first `/` after the leading one, and the
name segment must contain no further `/`; `isSlugSeg` enforces both. -/
def matchHref (h : List Char) : Option (List Char × List Char) :=
  match chopNL h with
  | [] => none
  | c :: rest =>
    if c = '/' then
      let org := rest.takeWhile (fun x => x ≠ '/')
      match rest.dropWhile (fun x => x ≠ '/') with
      | [] => none
      | d :: name =>
        if d = '/' then
          if isSlugSeg org && isSlugSeg name then some (org, name) else none
        else none
    else none

/-- `BAD_ORGS` (scraper.py lines 28-32): reserved top-level path segments
that can never be an organization. -/
def BAD_ORGS : List (List Char) :=
  ["models", "datasets", "spaces", "docs", "search", "organizations", "settings",
   "pricing", "login", "join", "new", "collections", "tasks", "events", "api",
   "blog", "about", "terms", "privacy", "contact", "people"].map String.data

/-- The per-anchor body of the extraction loop (scraper.py lines 133-149):
strip query/fragment, match the slug regex, reject denylisted
organizations and segments containing `%` or `@`, and build `org/name`. -/
def validId (a : List Char) : Option (List Char) :=
  match matchHref (stripQF a) with
  | none => none
  | some (org, name) =>
    if org ∈ BAD_ORGS then none
    else if '%' ∈ org ∨ '%' ∈ name ∨ '@' ∈ org ∨ '@' ∈ name then none
    else some (org ++ '/' :: name)

/-- The candidate identifier stream read off the page's anchors in display
order (scraper.py lines 132-149); the page body is abstracted as the list
of its anchors' href values in document order. -/
def extractIds (hrefs : List (List Char)) : List (List Char) :=
  hrefs.filterMap validId

/-- The deduplication loop of scraper.py lines 152-159: skip an identifier
if it was already seen, starts with `search/`, or contains `%`; otherwise
record it as seen and keep it. -/
def scrDedup (seen : List (List Char)) : List (List Char) → List (List Char)
  | [] => []
  | mid :: rest =>
    if mid ∈ seen ∨ "search/".data <+: mid ∨ '%' ∈ mid then scrDedup seen rest
    else mid :: scrDedup (mid :: seen) rest

/-- The HTML-mode extraction result for one successfully fetched listing
page (scraper.py lines 130-161): extract candidates, deduplicate keeping
first-seen order, truncate to the limit. -/
def scrapeModelsHtml (hrefs : List (List Char)) (limit : Nat) : List (List Char) :=
  (scrDedup [] (extractIds hrefs)).take limit

/-! Lemmas about the HTML extraction pipeline. -/

lemma isSlugSeg_chars {s : List Char} (h : isSlugSeg s = true) :
    ∀ c ∈ s, isSegChar c = true := by
  cases s with
  | nil => simp [isSlugSeg] at h
  | cons c cs =>
    simp only [isSlugSeg, Bool.and_eq_true, List.all_eq_true] at h
    intro x hx
    rcases List.mem_cons.mp hx with rfl | hx
    · simp [isSegChar, h.1]
    · exact h.2 x hx

lemma isSlugSeg_ne_nil {s : List Char} (h : isSlugSeg s = true) : s ≠ [] := by
  intro hs; subst hs; simp [isSlugSeg] at h

lemma no_slash_of_slug {s : List Char} (h : isSlugSeg s = true) : '/' ∉ s := by
  intro hin
  have := isSlugSeg_chars h '/' hin
  simp [isSegChar] at this

lemma matchHref_some {h org name : List Char}
    (hm : matchHref h = some (org, name)) :
    isSlugSeg org = true ∧ isSlugSeg name = true := by
  unfold matchHref at hm
  cases hc : chopNL h with
  | nil => rw [hc] at hm; exact absurd hm (by simp)
  | cons c rest =>
    rw [hc] at hm
    by_cases h1 : c = '/'
    · simp only [h1, if_true] at hm
      cases hd : rest.dropWhile (fun x => x ≠ '/') with
      | nil => rw [hd] at hm; exact absurd hm (by simp)
      | cons d nm =>
        rw [hd] at hm
        by_cases h2 : d = '/'
        · simp only [h2, if_true] at hm
          by_cases h3 : isSlugSeg (rest.takeWhile (fun x => x ≠ '/')) && isSlugSeg nm
          · simp only [h3, if_true, Option.some.injEq, Prod.mk.injEq] at hm
            obtain ⟨rfl, rfl⟩ := hm
            simpa [Bool.and_eq_true] using h3
          · simp only [h3, if_false] at hm; exact absurd hm (by simp)
        · simp only [h2, if_false] at hm; exact absurd hm (by simp)
    · simp only [h1, if_false] at hm; exact absurd hm (by simp)

lemma validId_some {a mid : List Char} (h : validId a = some mid) :
    ∃ org name, mid = org ++ '/' :: name ∧
      isSlugSeg org = true ∧ isSlugSeg name = true ∧
      org ∉ BAD_ORGS ∧
      '%' ∉ org ∧ '%' ∉ name ∧ '@' ∉ org ∧ '@' ∉ name := by
  unfold validId at h
  cases hm : matchHref (stripQF a) with
  | none => rw [hm] at h; exact absurd h (by simp)
  | some p =>
    obtain ⟨org, name⟩ := p
    rw [hm] at h
    by_cases hb : org ∈ BAD_ORGS
    · simp only [hb, if_true] at h; exact absurd h (by simp)
    · simp only [hb, if_false] at h
      by_cases hpct : '%' ∈ org ∨ '%' ∈ name ∨ '@' ∈ org ∨ '@' ∈ name
      · simp only [hpct, if_true] at h; exact absurd h (by simp)
      · simp only [hpct, if_false, Option.some.injEq] at h
        push_neg at hpct
        obtain ⟨hs1, hs2⟩ := matchHref_some hm
        exact ⟨org, name, h.symm, hs1, hs2, hb, hpct.1, hpct.2.1, hpct.2.2.1, hpct.2.2.2⟩

lemma pre_slash_eq (name : List Char) :
    ∀ s org : List Char, '/' ∉ s → '/' ∉ org →
      (s ++ ['/'] <+: org ++ '/' :: name) → s = org := by
  intro s
  induction s with
  | nil =>
    intro org _ horg hp
    cases org with
    | nil => rfl
    | cons b org2 =>
      obtain ⟨t, ht⟩ := hp
      simp only [List.nil_append, List.cons_append, List.cons.injEq] at ht
      exact absurd (List.mem_cons_self b org2) (ht.1 ▸ horg)
  | cons a s2 ih =>
    intro org horgs horg hp
    cases org with
    | nil =>
      obtain ⟨t, ht⟩ := hp
      simp only [List.cons_append, List.nil_append, List.cons.injEq] at ht
      exact absurd (ht.1 ▸ List.mem_cons_self a s2) horgs
    | cons b org2 =>
      obtain ⟨t, ht⟩ := hp
      simp only [List.cons_append, List.cons.injEq] at ht
      have hab : a = b := ht.1
      have hrec : s2 = org2 := by
        refine ih org2 (fun hc => horgs (List.mem_cons_of_mem a hc))
          (fun hc => horg (List.mem_cons_of_mem b hc)) ⟨t, ?_⟩
        simpa using ht.2
      rw [hab, hrec]

lemma search_data_eq : "search/".data = "search".data ++ ['/'] := by decide

lemma search_mem_bad : "search".data ∈ BAD_ORGS := by decide

lemma validId_not_search {a mid : List Char} (h : validId a = some mid) :
    ¬ ("search/".data <+: mid) := by
  obtain ⟨org, name, rfl, hs1, _, hb, -⟩ := validId_some h
  intro hp
  rw [search_data_eq] at hp
  have : "search".data = org :=
    pre_slash_eq name _ org (by decide) (no_slash_of_slug hs1) hp
  exact hb (this ▸ search_mem_bad)

lemma validId_no_pct {a mid : List Char} (h : validId a = some mid) :
    '%' ∉ mid := by
  obtain ⟨org, name, rfl, _, _, _, h1, h2, -⟩ := validId_some h
  intro hm
  rcases List.mem_append.mp hm with hm | hm
  · exact h1 hm
  · rcases List.mem_cons.mp hm with hm | hm
    · exact absurd hm (by decide)
    · exact h2 hm

lemma mem_scrDedup : ∀ (seen l : List (List Char)) (x : List Char),
    x ∈ scrDedup seen l →
      x ∈ l ∧ x ∉ seen ∧ ¬ ("search/".data <+: x) ∧ '%' ∉ x := by
  intro seen l
  induction l generalizing seen with
  | nil => intro x hx; simp [scrDedup] at hx
  | cons mid rest ih =>
    intro x hx
    by_cases hc : mid ∈ seen ∨ "search/".data <+: mid ∨ '%' ∈ mid
    · rw [scrDedup, if_pos hc] at hx
      obtain ⟨h1, h2, h3, h4⟩ := ih seen x hx
      exact ⟨List.mem_cons_of_mem _ h1, h2, h3, h4⟩
    · rw [scrDedup, if_neg hc] at hx
      push_neg at hc
      rcases List.mem_cons.mp hx with rfl | hx
      · exact ⟨List.mem_cons_self _ _, hc.1, hc.2.1, hc.2.2⟩
      · obtain ⟨h1, h2, h3, h4⟩ := ih (mid :: seen) x hx
        exact ⟨List.mem_cons_of_mem _ h1,
          fun hs => h2 (List.mem_cons_of_mem _ hs), h3, h4⟩

lemma scrDedup_sublist : ∀ (seen l : List (List Char)), List.Sublist (scrDedup seen l) l := by
  intro seen l
  induction l generalizing seen with
  | nil => simp [scrDedup]
  | cons mid rest ih =>
    by_cases hc : mid ∈ seen ∨ "search/".data <+: mid ∨ '%' ∈ mid
    · rw [scrDedup, if_pos hc]
      exact (ih seen).trans (List.sublist_cons_self mid rest)
    · rw [scrDedup, if_neg hc]
      exact (ih (mid :: seen)).cons₂ mid

lemma scrDedup_nodup : ∀ (seen l : List (List Char)), (scrDedup seen l).Nodup := by
  intro seen l
  induction l generalizing seen with
  | nil => simp [scrDedup]
  | cons mid rest ih =>
    by_cases hc : mid ∈ seen ∨ "search/".data <+: mid ∨ '%' ∈ mid
    · rw [scrDedup, if_pos hc]; exact ih seen
    · rw [scrDedup, if_neg hc]
      refine List.nodup_cons.mpr ⟨?_, ih (mid :: seen)⟩
      intro hmem
      exact (mem_scrDedup _ _ _ hmem).2.1 (List.mem_cons_self mid seen)

lemma scrDedup_eq_dedupFS :
    ∀ l : List (List Char),
      (∀ mid ∈ l, ¬ ("search/".data <+: mid) ∧ '%' ∉ mid) →
      ∀ seen, scrDedup seen l = dedupFS seen l := by
  intro l
  induction l with
  | nil => intro _ seen; rfl
  | cons mid rest ih =>
    intro hl seen
    have hmid := hl mid (List.mem_cons_self _ _)
    have hrest : ∀ x ∈ rest, ¬ ("search/".data <+: x) ∧ '%' ∉ x :=
      fun x hx => hl x (List.mem_cons_of_mem _ hx)
    by_cases hs : mid ∈ seen
    · rw [scrDedup, if_pos (Or.inl hs), dedupFS, if_pos hs]
      exact ih hrest seen
    · rw [scrDedup, if_neg (by
        push_neg
        exact ⟨hs, hmid.1, hmid.2⟩), dedupFS, if_neg hs]
      rw [ih hrest (mid :: seen)]

/-- A small concrete listing page, used to instantiate universally
quantified theorems at concrete inputs: four anchors, of which three
survive extraction as two distinct identifiers. -/
def demoHrefs : List (List Char) :=
  ["/orgA/m1", "/orgB/m2", "/orgA/m1", "/models/x"].map String.data

/-- C4: every identifier extracted from an HTML listing page parses as
`org/name` with non-empty segments over the slug alphabet (alphanumeric
plus `.`, `_`, `-`), an organization outside the reserved denylist, no `%`
or `@` in either segment, and no `search/` prefix; the output has no
duplicates and is a subsequence of the candidate stream read off the page
in display order (first-seen order). -/
theorem C4_extractor_invariants (hrefs : List (List Char)) (limit : Nat) :
    (∀ mid ∈ scrapeModelsHtml hrefs limit,
      (∃ org name, mid = org ++ '/' :: name ∧ org ≠ [] ∧ name ≠ [] ∧
        (∀ c ∈ org, isSegChar c = true) ∧ (∀ c ∈ name, isSegChar c = true) ∧
        org ∉ BAD_ORGS ∧ '%' ∉ org ∧ '@' ∉ org ∧ '%' ∉ name ∧ '@' ∉ name) ∧
      ¬ ("search/".data <+: mid)) ∧
    (scrapeModelsHtml hrefs limit).Nodup ∧
    List.Sublist (scrapeModelsHtml hrefs limit) (extractIds hrefs) := by
  refine ⟨?_, ?_, ?_⟩
  · intro mid hmid
    have h1 : mid ∈ scrDedup [] (extractIds hrefs) := List.mem_of_mem_take hmid
    obtain ⟨h2, _, h3, _⟩ := mem_scrDedup _ _ _ h1
    obtain ⟨a, _, hv⟩ := List.mem_filterMap.mp h2
    obtain ⟨org, name, rfl, hs1, hs2, hb, hp1, hp2, hp3, hp4⟩ := validId_some hv
    exact ⟨⟨org, name, rfl, isSlugSeg_ne_nil hs1, isSlugSeg_ne_nil hs2,
      isSlugSeg_chars hs1, isSlugSeg_chars hs2, hb, hp1, hp3, hp2, hp4⟩, h3⟩
  · exact List.Sublist.nodup (List.take_sublist _ _) (scrDedup_nodup [] _)
  · exact (List.take_sublist _ _).trans (scrDedup_sublist [] _)

/-- C4 witness: the invariants hold concretely for `orgA/m1` extracted
from the demo page. -/
theorem C4_extractor_invariants_witness :
    ((∃ org name, "orgA/m1".data = org ++ '/' :: name ∧ org ≠ [] ∧ name ≠ [] ∧
        (∀ c ∈ org, isSegChar c = true) ∧ (∀ c ∈ name, isSegChar c = true) ∧
        org ∉ BAD_ORGS ∧ '%' ∉ org ∧ '@' ∉ org ∧ '%' ∉ name ∧ '@' ∉ name) ∧
      ¬ ("search/".data <+: "orgA/m1".data)) ∧
    (scrapeModelsHtml demoHrefs 5).Nodup := by
  have h := C4_extractor_invariants demoHrefs 5
  exact ⟨h.1 "orgA/m1".data (by decide), h.2.1⟩

/-- C5: when the page holds at least `N` distinct valid candidate
identifiers, extraction with limit `N` returns exactly the first `N`
distinct candidates in first-seen page order: truncation happens after
deduplication (the result is the `N`-prefix of the deduplicated candidate
stream), has length exactly `N`, no duplicates, and preserves page
order. -/
theorem C5_limit_after_dedup (hrefs : List (List Char)) (N : Nat)
    (h : N ≤ (dedupFS [] (extractIds hrefs)).length) :
    scrapeModelsHtml hrefs N = (dedupFS [] (extractIds hrefs)).take N ∧
    (scrapeModelsHtml hrefs N).length = N ∧
    (scrapeModelsHtml hrefs N).Nodup ∧
    List.Sublist (scrapeModelsHtml hrefs N) (extractIds hrefs) := by
  have hvalid : ∀ mid ∈ extractIds hrefs, ¬ ("search/".data <+: mid) ∧ '%' ∉ mid := by
    intro mid hm
    obtain ⟨a, _, hv⟩ := List.mem_filterMap.mp hm
    exact ⟨validId_not_search hv, validId_no_pct hv⟩
  have heq : scrDedup [] (extractIds hrefs) = dedupFS [] (extractIds hrefs) :=
    scrDedup_eq_dedupFS _ hvalid []
  refine ⟨by rw [scrapeModelsHtml, heq], ?_, ?_, ?_⟩
  · rw [scrapeModelsHtml, heq, List.length_take]
    exact Nat.min_eq_left h
  · exact List.Sublist.nodup (List.take_sublist _ _) (scrDedup_nodup [] _)
  · exact (List.take_sublist _ _).trans (scrDedup_sublist [] _)

/-- C5 witness: the demo page has two distinct valid candidates, and a
limit of 2 returns exactly those two, deduplicated, in page order. -/
theorem C5_limit_after_dedup_witness :
    2 ≤ (dedupFS [] (extractIds demoHrefs)).length ∧
    (scrapeModelsHtml demoHrefs 2).length = 2 ∧
    (scrapeModelsHtml demoHrefs 2).Nodup :=
  ⟨by decide, (C5_limit_after_dedup demoHrefs 2 (by decide)).2.1,
    (C5_limit_after_dedup demoHrefs 2 (by decide)).2.2.1⟩

/-! The HTTP fetch loop of `WebScraper.scrape_url` (scraper.py lines
56-99).  The network is an oracle from 0-based attempt number to outcome;
the BeautifulSoup processing of a 200 body is abstracted as the fetched
page carrying its extracted title and text.  `time.sleep` calls are
recorded, in order, in an instrumentation list of requested delays. -/

/-- The parsed content of a fetched page body (title tag text and
script/style-free page text, scraper.py lines 78-89). -/
structure Page where
  title : String
  text : String
deriving Repr, DecidableEq

/-- Outcome of one `session.get` call: a response with an HTTP status
code, or a raised `requests.RequestException` with a message. -/
inductive Attempt where
  | resp (status : Nat) (page : Page)
  | exc (msg : String)
deriving Repr, DecidableEq

/-- The error string the loop stores for a failed attempt: `"HTTP <code>"`
for a response (line 93), the exception text for an exception (line 95). -/
def attemptErr : Attempt → String
  | .resp st _ => "HTTP " ++ toString st
  | .exc m => m

/-- Whether an attempt outcome is the `status_code == 200` success case. -/
def is200 : Attempt → Bool
  | .resp 200 _ => true
  | _ => false

/-- Whether an attempt outcome is a raised `requests.RequestException`. -/
def isExc : Attempt → Bool
  | .exc _ => true
  | _ => false

/-- The `scrape_url` result dict (scraper.py lines 66-72). -/
structure ScrapeResult where
  url : String
  title : String
  text : String
  status : String
  error : Option String
deriving Repr, DecidableEq

/-- The `for attempt in range(self.retries)` loop body (scraper.py lines
74-97): `k` is the current 0-based attempt index, `fuel` the number of
remaining iterations (`retries - k`), `res` the result dict so far and
`sleeps` the delays requested so far.  A 200 response returns
immediately with title/text/status updated (the stale `error` value from
an earlier attempt is not cleared, as in the source); a non-200 response
records `"HTTP <code>"` in `error` and falls through to the next
iteration with no sleep; an exception records its message and sleeps
`2 * (attempt + 1)` seconds unless this was the last attempt. -/
def scrapeGo (net : Nat → Attempt) (retries : Nat) :
    Nat → Nat → ScrapeResult → List Nat → ScrapeResult × List Nat
  | _, 0, res, sleeps => (res, sleeps)
  | k, fuel + 1, res, sleeps =>
    match net k with
    | .resp st page =>
      if st = 200 then
        ({ res with title := page.title, text := page.text, status := "success" }, sleeps)
      else
        scrapeGo net retries (k + 1) fuel
          { res with error := some ("HTTP " ++ toString st) } sleeps
    | .exc msg =>
      scrapeGo net retries (k + 1) fuel { res with error := some msg }
        (if k < retries - 1 then sleeps ++ [2 * (k + 1)] else sleeps)

/-- `WebScraper.scrape_url` (scraper.py lines 56-99) over a network
oracle, returning the result dict and the list of requested sleep
delays. -/
def scrapeUrl (net : Nat → Attempt) (url : String) (retries : Nat) :
    ScrapeResult × List Nat :=
  scrapeGo net retries 0 retries
    { url := url, title := "", text := "", status := "error", error := none } []

/-- The sleep delays the loop will request from attempt index `k` with
`fuel` iterations left: one delay of `2 * (j + 1)` for each
exception-raising attempt `j` that is not the final allowed attempt,
stopping at the first 200 response. -/
def expectedDelays (net : Nat → Attempt) (retries : Nat) : Nat → Nat → List Nat
  | _, 0 => []
  | k, fuel + 1 =>
    match net k with
    | .resp st _ => if st = 200 then [] else expectedDelays net retries (k + 1) fuel
    | .exc _ =>
      (if k < retries - 1 then [2 * (k + 1)] else []) ++
        expectedDelays net retries (k + 1) fuel

lemma scrapeGo_sleeps (net : Nat → Attempt) (retries : Nat) :
    ∀ fuel k res sleeps,
      (scrapeGo net retries k fuel res sleeps).2 =
        sleeps ++ expectedDelays net retries k fuel := by
  intro fuel
  induction fuel with
  | zero => intro k res sleeps; simp [scrapeGo, expectedDelays]
  | succ f ih =>
    intro k res sleeps
    rw [scrapeGo, expectedDelays]
    cases hk : net k with
    | resp st page =>
      by_cases h200 : st = 200
      · simp [h200]
      · simp only [h200, if_neg, ite_false]
        exact ih (k + 1) _ sleeps
    | exc msg =>
      rw [ih (k + 1)]
      by_cases hl : k < retries - 1 <;> simp [hl]

lemma mem_expectedDelays (net : Nat → Attempt) (retries : Nat) :
    ∀ fuel k d, d ∈ expectedDelays net retries k fuel →
      ∃ j, isExc (net j) = true ∧ j + 1 < retries ∧ d = 2 * (j + 1) := by
  intro fuel
  induction fuel with
  | zero => intro k d hd; simp [expectedDelays] at hd
  | succ f ih =>
    intro k d hd
    rw [expectedDelays] at hd
    cases hk : net k with
    | resp st page =>
      rw [hk] at hd
      by_cases h200 : st = 200
      · simp [h200] at hd
      · simp only [h200, ite_false] at hd
        exact ih (k + 1) d hd
    | exc msg =>
      rw [hk] at hd
      rcases List.mem_append.mp hd with hd | hd
      · by_cases hl : k < retries - 1
        · rw [if_pos hl] at hd
          have hdk : d = 2 * (k + 1) := by simpa using hd
          refine ⟨k, by simp [hk, isExc], ?_, hdk⟩
          omega
        · rw [if_neg hl] at hd; simp at hd
      · exact ih (k + 1) d hd

lemma scrapeGo_all_fail (net : Nat → Attempt) (retries : Nat) :
    ∀ fuel k res sleeps, fuel ≠ 0 →
      (∀ j, k ≤ j → j < k + fuel → is200 (net j) = false) →
      (scrapeGo net retries k fuel res sleeps).1.status = res.status ∧
      (scrapeGo net retries k fuel res sleeps).1.error =
        some (attemptErr (net (k + fuel - 1))) := by
  intro fuel
  induction fuel with
  | zero => intro k res sleeps h; exact absurd rfl h
  | succ f ih =>
    intro k res sleeps _ hfail
    have hk : is200 (net k) = false := hfail k (Nat.le_refl k) (by omega)
    rw [scrapeGo]
    cases hnk : net k with
    | resp st page =>
      have h200 : st ≠ 200 := by
        intro h; rw [h] at hnk; rw [hnk] at hk; simp [is200] at hk
      dsimp only
      rw [if_neg h200]
      cases f with
      | zero =>
        constructor
        · rfl
        · show some _ = some (attemptErr (net (k + 1 - 1)))
          simp [hnk, attemptErr]
      | succ f2 =>
        have := ih (k + 1) { res with error := some ("HTTP " ++ toString st) }
          sleeps (by omega) (fun j h1 h2 => hfail j (by omega) (by omega))
        refine ⟨this.1, ?_⟩
        rw [this.2, show k + 1 + (f2 + 1) - 1 = k + (f2 + 1 + 1) - 1 from by omega]
    | exc msg =>
      dsimp only
      cases f with
      | zero =>
        constructor
        · rfl
        · show some _ = some (attemptErr (net (k + 1 - 1)))
          simp [hnk, attemptErr]
      | succ f2 =>
        have := ih (k + 1) { res with error := some msg }
          (if k < retries - 1 then sleeps ++ [2 * (k + 1)] else sleeps)
          (by omega) (fun j h1 h2 => hfail j (by omega) (by omega))
        refine ⟨this.1, ?_⟩
        rw [this.2, show k + 1 + (f2 + 1) - 1 = k + (f2 + 1 + 1) - 1 from by omega]

lemma scrapeGo_first200 (net : Nat → Attempt) (retries : Nat) (page : Page) :
    ∀ fuel j k res sleeps, j < fuel →
      net (k + j) = .resp 200 page →
      (∀ i, i < j → is200 (net (k + i)) = false) →
      (scrapeGo net retries k fuel res sleeps).1.status = "success" ∧
      (scrapeGo net retries k fuel res sleeps).1.title = page.title ∧
      (scrapeGo net retries k fuel res sleeps).1.text = page.text := by
  intro fuel
  induction fuel with
  | zero => intro j k res sleeps hj; omega
  | succ f ih =>
    intro j k res sleeps hj hsucc hbefore
    rw [scrapeGo]
    cases j with
    | zero =>
      rw [Nat.add_zero] at hsucc
      rw [hsucc]
      dsimp only
      rw [if_pos rfl]
      exact ⟨rfl, rfl, rfl⟩
    | succ j2 =>
      have hk : is200 (net k) = false := by
        simpa using hbefore 0 (Nat.succ_pos j2)
      cases hnk : net k with
      | resp st pg =>
        have h200 : st ≠ 200 := by
          intro h; rw [h] at hnk; rw [hnk] at hk; simp [is200] at hk
        dsimp only
        rw [if_neg h200]
        exact ih j2 (k + 1) _ sleeps (by omega)
          (by rw [show k + 1 + j2 = k + (j2 + 1) by omega]; exact hsucc)
          (fun i hi => by
            rw [show k + 1 + i = k + (i + 1) by omega]
            exact hbefore (i + 1) (by omega))
      | exc msg =>
        dsimp only
        exact ih j2 (k + 1) _ _ (by omega)
          (by rw [show k + 1 + j2 = k + (j2 + 1) by omega]; exact hsucc)
          (fun i hi => by
            rw [show k + 1 + i = k + (i + 1) by omega]
            exact hbefore (i + 1) (by omega))

/-- A concrete page used by the C2 counterexample. -/
def pageA : Page := { title := "T", text := "body" }

/-- A network oracle whose first attempt returns HTTP 500 and whose later
attempts return HTTP 200. -/
def netRetryAfter500 : Nat → Attempt :=
  fun k => if k = 0 then .resp 500 pageA else .resp 200 pageA

/-- A network oracle that always raises a request exception. -/
def netAlwaysExc : Nat → Attempt := fun _ => .exc "boom"

/-- C2 counterexample: with three allowed attempts, a first attempt that
returns HTTP 500 (a non-2xx status) is followed by a second attempt — the
fetch is retried, succeeds, and the overall result is a success, not an
immediately returned failed result; no backoff sleep is requested
either. -/
theorem C2_counterexample :
    (scrapeUrl netRetryAfter500 "http://x" 3).1.status = "success" ∧
    (scrapeUrl netRetryAfter500 "http://x" 3).1.status ≠ "error" ∧
    (scrapeUrl netRetryAfter500 "http://x" 3).2 = [] := by
  refine ⟨rfl, by decide, rfl⟩

/-- C2 (amended): the fetch loop re-attempts after both network exceptions
and non-200 responses, up to `retries` total attempts; if every attempt
fails the result is a failed result (status `"error"`) carrying the last
attempt's error message, never an exception; the first HTTP 200 response
wins even when earlier attempts returned non-2xx statuses; and a backoff
sleep is requested only for exception-raising attempts other than the
last, with delay `2 * (k - 1)` seconds before 1-based attempt `k` (i.e.
`2 * (j + 1)` after 0-based attempt `j`). -/
theorem C2_retry_policy (net : Nat → Attempt) (url : String) (retries : Nat) :
    (retries ≠ 0 → (∀ k, k < retries → is200 (net k) = false) →
      (scrapeUrl net url retries).1.status = "error" ∧
      (scrapeUrl net url retries).1.error = some (attemptErr (net (retries - 1)))) ∧
    (∀ k page, k < retries → net k = .resp 200 page →
      (∀ i, i < k → is200 (net i) = false) →
      (scrapeUrl net url retries).1.status = "success" ∧
      (scrapeUrl net url retries).1.title = page.title ∧
      (scrapeUrl net url retries).1.text = page.text) ∧
    (∀ d, d ∈ (scrapeUrl net url retries).2 →
      ∃ j, isExc (net j) = true ∧ j + 1 < retries ∧ d = 2 * (j + 1)) := by
  refine ⟨?_, ?_, ?_⟩
  · intro h0 hfail
    have h := scrapeGo_all_fail net retries retries 0
      { url := url, title := "", text := "", status := "error", error := none } [] h0
      (fun j _ h2 => hfail j (by omega))
    rw [Nat.zero_add] at h
    exact h
  · intro k page hk hnet hbefore
    exact scrapeGo_first200 net retries page retries k 0
      { url := url, title := "", text := "", status := "error", error := none } [] hk
      (by simpa using hnet) (fun i hi => by simpa using hbefore i hi)
  · intro d hd
    rw [scrapeUrl, scrapeGo_sleeps net retries retries 0] at hd
    rw [List.nil_append] at hd
    exact mem_expectedDelays net retries retries 0 d hd

/-- C2 witness: with every attempt raising an exception and three allowed
attempts, the result is a failed result carrying the last error, and the
requested backoff delays are 2 seconds before attempt 2 and 4 seconds
before attempt 3. -/
theorem C2_retry_policy_witness :
    ((scrapeUrl netAlwaysExc "u" 3).1.status = "error" ∧
      (scrapeUrl netAlwaysExc "u" 3).1.error = some (attemptErr (netAlwaysExc 2))) ∧
    (scrapeUrl netAlwaysExc "u" 3).2 = [2, 4] :=
  ⟨(C2_retry_policy netAlwaysExc "u" 3).1 (by decide) (by decide), by decide⟩

/-! Detail lookup and enrichment (`HuggingFaceScraper.get_model_info`,
scraper.py lines 189-227, and `HuggingFaceScraper.enrich_models`, lines
229-246).  The per-identifier detail endpoint is an oracle from identifier
to outcome; the JSON payload of a response is a record of optional fields,
`none` meaning the key is absent from the payload. -/

/-- The JSON payload of a model detail response; `none` models a key
missing from the payload (so `Payload.likes.getD 0` is `data.get("likes",
0)`, and so on). -/
structure Payload where
  likes : Option Int := none
  downloads : Option Int := none
  tags : Option (List String) := none
  pipeline_tag : Option String := none
  created_at : Option String := none
  lastModified : Option String := none
deriving Repr, DecidableEq

/-- Outcome of the single detail-lookup HTTP call for one identifier. -/
inductive Fetch where
  | resp (status : Nat) (data : Payload)
  | exc (msg : String)
deriving Repr, DecidableEq

/-- The enriched model record (the dict built by `get_model_info`).  The
Python error-path dict carries only the first five keys; since every
consumer reads the remaining keys through `.get` with exactly the
defaults used here (`[]` for tags, `""` for the strings), giving the
error-path record those values is observationally faithful. -/
structure ModelRecord where
  model_id : String
  likes : Int
  downloads : Int
  status : String
  error : Option String
  tags : List String
  pipeline_tag : String
  created_at : String
  last_modified : String
deriving Repr, DecidableEq, Inhabited

/-- `HuggingFaceScraper.get_model_info` (scraper.py lines 189-227) over a
detail-lookup oracle: on a 200 response populate the record from the
payload and mark it `"success"`; on any other status record `"HTTP
<code>"`; on a request exception record its message.  Only failure is
possible besides 200 — the comparison in the source is
`status_code == 200`. -/
def getModelInfo (fetch : String → Fetch) (mid : String) : ModelRecord :=
  let base : ModelRecord :=
    { model_id := mid, likes := 0, downloads := 0, status := "error", error := none,
      tags := [], pipeline_tag := "", created_at := "", last_modified := "" }
  match fetch mid with
  | .resp st data =>
    if st = 200 then
      { base with
        likes := data.likes.getD 0
        downloads := data.downloads.getD 0
        status := "success"
        tags := data.tags.getD []
        pipeline_tag := data.pipeline_tag.getD ""
        created_at := data.created_at.getD ""
        last_modified := data.lastModified.getD "" }
    else { base with error := some ("HTTP " ++ toString st) }
  | .exc msg => { base with error := some msg }

/-- `HuggingFaceScraper.enrich_models` (scraper.py lines 229-246): look up
each identifier in input order and keep only the records whose lookup
succeeded. -/
def enrichModels (fetch : String → Fetch) : List String → List ModelRecord
  | [] => []
  | mid :: rest =>
    let info := getModelInfo fetch mid
    if info.status = "success" then info :: enrichModels fetch rest
    else enrichModels fetch rest

/-! Context aggregation (`create_context_from_models`, scraper.py lines
249-302). -/

/-- Python's substring test `needle in hay` on strings. -/
def pyIn (needle hay : String) : Bool := decide (needle.data <:+: hay.data)

/-- One model's topic test (scraper.py lines 266-272): the lowered topic
is a substring of the lowered pipeline tag, of some lowered tag, or of
the lowered identifier.  `tl` is already lowered by the caller.
(`String.toLower` lowers ASCII letters, which coincides with Python's
`str.lower` on the ASCII data handled here.) -/
def matchesTopic (tl : String) (m : ModelRecord) : Bool :=
  pyIn tl m.pipeline_tag.toLower ||
    m.tags.any (fun tag => pyIn tl tag.toLower) ||
    pyIn tl m.model_id.toLower

/-- The topic-filter step (scraper.py lines 260-274): `topic` is filtered
on only when truthy, i.e. present and non-empty. -/
def topicFilter (topic : Option String) (models : List ModelRecord) : List ModelRecord :=
  let t := topic.getD ""
  if t = "" then models else models.filter (matchesTopic t.toLower)

/-- Descending-likes comparison used for ranking; `likesDesc a b` says `a`
may come before `b`. -/
def likesDesc (a b : ModelRecord) : Prop := b.likes ≤ a.likes

instance : DecidableRel likesDesc := fun a b => Int.decLe b.likes a.likes

instance : IsTotal ModelRecord likesDesc := ⟨fun a b => le_total b.likes a.likes⟩

instance : IsTrans ModelRecord likesDesc := ⟨fun _ _ _ h1 h2 => le_trans h2 h1⟩

/-- `sorted(models, key=lambda x: x.get("likes", 0), reverse=True)`
(scraper.py line 282).  CPython's `sorted` is a stable sort; with
`reverse=True` it orders by key descending while equal-key elements keep
their original relative order.  A stable sort's output is uniquely
determined by the comparison, so Mathlib's insertion sort under
`likesDesc` — which is proved stable below (`filter_insertionSort`) — is
extensionally the same function. -/
def sortByLikesDesc (l : List ModelRecord) : List ModelRecord :=
  List.insertionSort likesDesc l

/-- The context dict built by `create_context_from_models` (scraper.py
lines 290-300).  The two averages are Python floats, modelled in `ℚ`;
`pipeline_tags` is `list(set(...))`, whose iteration order Python leaves
unspecified — it is modelled in first-seen order, and no claim depends on
that order. -/
structure ContextReport where
  topic : String
  total_models : Nat
  total_likes : Int
  total_downloads : Int
  average_likes : ℚ
  average_downloads : ℚ
  top_models : List ModelRecord
  pipeline_tags : List String
  models : List ModelRecord
deriving Repr, DecidableEq

/-- `create_context_from_models` (scraper.py lines 249-302). -/
def createContextFromModels (models : List ModelRecord) (topic : Option String) :
    ContextReport :=
  let t := topic.getD ""
  let filtered := topicFilter topic models
  let total_models := filtered.length
  let total_likes := (filtered.map (fun m => m.likes)).sum
  let total_downloads := (filtered.map (fun m => m.downloads)).sum
  { topic := if t = "" then "all" else t
    total_models := total_models
    total_likes := total_likes
    total_downloads := total_downloads
    average_likes :=
      if 0 < total_models then (total_likes : ℚ) / (total_models : ℚ) else 0
    average_downloads :=
      if 0 < total_models then (total_downloads : ℚ) / (total_models : ℚ) else 0
    top_models := (sortByLikesDesc filtered).take 10
    pipeline_tags :=
      dedupFS [] (filtered.filterMap
        (fun m => if m.pipeline_tag = "" then none else some m.pipeline_tag))
    models := filtered }

/-! Claims about the enricher and the detail lookup. -/

lemma getModelInfo_model_id (fetch : String → Fetch) (mid : String) :
    (getModelInfo fetch mid).model_id = mid := by
  unfold getModelInfo
  cases fetch mid with
  | resp st data => by_cases h : st = 200 <;> simp [h]
  | exc msg => rfl

lemma enrich_eq_filter_map (fetch : String → Fetch) :
    ∀ ids : List String,
      enrichModels fetch ids =
        (ids.filter (fun mid => (getModelInfo fetch mid).status == "success")).map
          (getModelInfo fetch) := by
  intro ids
  induction ids with
  | nil => rfl
  | cons mid rest ih =>
    by_cases h : (getModelInfo fetch mid).status = "success"
    · simp [enrichModels, h, List.filter_cons, ih]
    · simp [enrichModels, h, List.filter_cons, ih]

/-- C3: the enricher keeps exactly the identifiers whose lookup succeeded:
every output record has status `"success"`, the output is no longer than
the input, every output identifier comes from the input, the output is
the input order restricted to successes (filter-then-lookup), and an
input identifier has a record in the output iff its lookup succeeded. -/
theorem C3_enricher_success_only (fetch : String → Fetch) (ids : List String) :
    (∀ r ∈ enrichModels fetch ids, r.status = "success") ∧
    (enrichModels fetch ids).length ≤ ids.length ∧
    (∀ r ∈ enrichModels fetch ids, r.model_id ∈ ids) ∧
    enrichModels fetch ids =
      (ids.filter (fun mid => (getModelInfo fetch mid).status == "success")).map
        (getModelInfo fetch) ∧
    (∀ mid ∈ ids,
      ((∃ r ∈ enrichModels fetch ids, r.model_id = mid) ↔
        (getModelInfo fetch mid).status = "success")) := by
  have heq := enrich_eq_filter_map fetch ids
  refine ⟨?_, ?_, ?_, heq, ?_⟩
  · intro r hr
    rw [heq] at hr
    obtain ⟨mid, hmid, rfl⟩ := List.mem_map.mp hr
    simpa using (List.mem_filter.mp hmid).2
  · rw [heq, List.length_map]
    exact List.length_filter_le _ _
  · intro r hr
    rw [heq] at hr
    obtain ⟨mid, hmid, rfl⟩ := List.mem_map.mp hr
    rw [getModelInfo_model_id]
    exact (List.mem_filter.mp hmid).1
  · intro mid hmid
    constructor
    · rintro ⟨r, hr, hid⟩
      rw [heq] at hr
      obtain ⟨mid2, hmid2, rfl⟩ := List.mem_map.mp hr
      rw [getModelInfo_model_id] at hid
      subst hid
      simpa using (List.mem_filter.mp hmid2).2
    · intro hsucc
      refine ⟨getModelInfo fetch mid, ?_, getModelInfo_model_id fetch mid⟩
      rw [heq]
      exact List.mem_map.mpr ⟨mid, List.mem_filter.mpr ⟨hmid, by simpa using hsucc⟩, rfl⟩

/-- The detail-lookup oracle of the spec's scenario: `orgA/m1` answers 200
with 10 likes; everything else raises a connection error. -/
def fetchC6 : String → Fetch := fun mid =>
  if mid = "orgA/m1" then .resp 200 { likes := some 10 } else .exc "connection error"

/-- The identifier list of the spec's scenario. -/
def idsC6 : List String := ["orgA/m1", "orgB/m2", "orgA/m1"]

/-- C3 witness: on the concrete scenario input, the failed `orgB/m2`
lookup has no record in the output, and the output is no longer than the
input. -/
theorem C3_enricher_success_only_witness :
    ("orgB/m2" ∈ idsC6 ∧
      ((∃ r ∈ enrichModels fetchC6 idsC6, r.model_id = "orgB/m2") ↔
        (getModelInfo fetchC6 "orgB/m2").status = "success")) ∧
    (enrichModels fetchC6 idsC6).length ≤ idsC6.length :=
  ⟨⟨by decide,
      (C3_enricher_success_only fetchC6 idsC6).2.2.2.2 "orgB/m2" (by decide)⟩,
    (C3_enricher_success_only fetchC6 idsC6).2.1⟩

/-- C6 counterexample: on the scenario input
`["orgA/m1", "orgB/m2", "orgA/m1"]` with both `orgA/m1` lookups
succeeding (likes 10) and `orgB/m2` failing, the enricher returns two
records, not one, because it does not deduplicate its input; the
aggregate count is 2, not 1. -/
theorem C6_scenario_counterexample :
    (enrichModels fetchC6 idsC6).length = 2 ∧
    (enrichModels fetchC6 idsC6).length ≠ 1 ∧
    (createContextFromModels (enrichModels fetchC6 idsC6) none).total_models = 2 ∧
    (createContextFromModels (enrichModels fetchC6 idsC6) none).total_models ≠ 1 := by
  refine ⟨rfl, by decide, rfl, by decide⟩

/-- C6 (amended): on the scenario input the enricher returns two records,
both the successful `orgA/m1` lookup (one per occurrence of the
identifier in the input — the enricher does not deduplicate), and
aggregating that output with no topic yields `total_models = 2`,
`total_likes = 20`, `average_likes = 10.0`. -/
theorem C6_scenario :
    enrichModels fetchC6 idsC6 =
      [getModelInfo fetchC6 "orgA/m1", getModelInfo fetchC6 "orgA/m1"] ∧
    (getModelInfo fetchC6 "orgA/m1").likes = 10 ∧
    (getModelInfo fetchC6 "orgA/m1").status = "success" ∧
    (createContextFromModels (enrichModels fetchC6 idsC6) none).total_models = 2 ∧
    (createContextFromModels (enrichModels fetchC6 idsC6) none).total_likes = 20 ∧
    (createContextFromModels (enrichModels fetchC6 idsC6) none).average_likes = 10 := by
  refine ⟨rfl, rfl, rfl, rfl, rfl, ?_⟩
  have h2 : (createContextFromModels (enrichModels fetchC6 idsC6) none).average_likes =
      ((20 : Int) : ℚ) / ((2 : Nat) : ℚ) := rfl
  rw [h2]
  norm_num

/-- A detail-lookup oracle answering 201 Created with a payload. -/
def fetch201 : String → Fetch := fun _ => .resp 201 { likes := some 7 }

/-- A detail-lookup oracle answering 200 with an empty payload (every
optional key absent). -/
def fetch200empty : String → Fetch := fun _ => .resp 200 {}

/-- C7 counterexample: a 201 response is a 2xx status, yet the record is
not populated from the payload — the source tests `status_code == 200`
exactly, so the lookup is marked failed (`"error"`, `HTTP 201`) and the
payload's 7 likes are not copied. -/
theorem C7_counterexample :
    (200 ≤ 201 ∧ 201 < 300) ∧
    (getModelInfo fetch201 "orgA/m1").status = "error" ∧
    (getModelInfo fetch201 "orgA/m1").likes ≠ 7 ∧
    (getModelInfo fetch201 "orgA/m1").error = some "HTTP 201" := by
  refine ⟨by decide, rfl, by decide, rfl⟩

/-- C7 (amended): for a detail lookup answered with status exactly 200,
the record is populated from the payload; optional fields missing from
the payload (pipeline tag, dates) resolve to the empty string — the
representation of absence this program uses, which downstream aggregation
treats as "no value" (an absent pipeline tag is excluded from
`pipeline_tags`) — never to a substantive default.  Any status other
than 200, other 2xx codes included, yields a failed record instead. -/
theorem C7_detail_lookup (fetch : String → Fetch) (mid : String) (data : Payload)
    (h : fetch mid = .resp 200 data) :
    getModelInfo fetch mid =
      { model_id := mid, likes := data.likes.getD 0, downloads := data.downloads.getD 0,
        status := "success", error := none, tags := data.tags.getD [],
        pipeline_tag := data.pipeline_tag.getD "",
        created_at := data.created_at.getD "",
        last_modified := data.lastModified.getD "" } ∧
    (data.pipeline_tag = none →
      (getModelInfo fetch mid).pipeline_tag = "" ∧
      (createContextFromModels [getModelInfo fetch mid] none).pipeline_tags = []) ∧
    (data.created_at = none → (getModelInfo fetch mid).created_at = "") ∧
    (data.lastModified = none → (getModelInfo fetch mid).last_modified = "") := by
  have h1 : getModelInfo fetch mid =
      { model_id := mid, likes := data.likes.getD 0, downloads := data.downloads.getD 0,
        status := "success", error := none, tags := data.tags.getD [],
        pipeline_tag := data.pipeline_tag.getD "",
        created_at := data.created_at.getD "",
        last_modified := data.lastModified.getD "" } := by
    unfold getModelInfo
    rw [h]
    rfl
  refine ⟨h1, ?_, ?_, ?_⟩
  · intro hp
    rw [h1]
    refine ⟨by simp [hp], ?_⟩
    simp [createContextFromModels, topicFilter, hp, dedupFS]
  · intro hp
    rw [h1]
    simp [hp]
  · intro hp
    rw [h1]
    simp [hp]

/-- C7 witness: a concrete 200 response with an empty payload yields a
success record whose optional fields are all the empty absence marker,
and the aggregator reports no pipeline tags for it. -/
theorem C7_detail_lookup_witness :
    fetch200empty "a/b" = .resp 200 {} ∧
    (getModelInfo fetch200empty "a/b").status = "success" ∧
    (getModelInfo fetch200empty "a/b").pipeline_tag = "" ∧
    (createContextFromModels [getModelInfo fetch200empty "a/b"] none).pipeline_tags = [] := by
  have h := C7_detail_lookup fetch200empty "a/b" {} rfl
  exact ⟨rfl, by rw [h.1], (h.2.1 rfl).1, (h.2.1 rfl).2⟩

/-! Claims about the aggregator's ranking and averages. -/

lemma filter_orderedInsert {α : Type} (r : α → α → Prop) [DecidableRel r] (p : α → Bool)
    (hp : ∀ a b, p a = true → p b = true → r a b) (a : α) :
    ∀ l, (List.orderedInsert r a l).filter p =
      if p a then a :: l.filter p else l.filter p := by
  intro l
  induction l with
  | nil => by_cases hpa : p a <;> simp [List.orderedInsert, List.filter_cons, hpa]
  | cons b l ih =>
    rw [List.orderedInsert]
    by_cases hr : r a b
    · rw [if_pos hr]
      by_cases hpa : p a <;> simp [List.filter_cons, hpa]
    · rw [if_neg hr]
      by_cases hpa : p a
      · have hpb : p b = false := by
          cases hb : p b
          · rfl
          · exact absurd (hp a b hpa hb) hr
        simp [List.filter_cons, hpb, ih, hpa]
      · simp [List.filter_cons, ih, hpa]

/-- Stability of the insertion sort: filtering to any class of mutually
tied elements commutes with sorting, i.e. tied elements keep their
original relative order. -/
lemma filter_insertionSort {α : Type} (r : α → α → Prop) [DecidableRel r] (p : α → Bool)
    (hp : ∀ a b, p a = true → p b = true → r a b) :
    ∀ l : List α, (List.insertionSort r l).filter p = l.filter p := by
  intro l
  induction l with
  | nil => rfl
  | cons a l ih =>
    rw [List.insertionSort, filter_orderedInsert r p hp a]
    by_cases hpa : p a <;> simp [List.filter_cons, hpa, ih]

/-- C8: `top_models` is the topic-filtered record list sorted by likes
descending — sorted (`likesDesc` pairwise), a permutation of the filtered
list, and stable (elements of any fixed likes value keep their original
relative order) — truncated to at most 10 entries. -/
theorem C8_top_models_ranking (models : List ModelRecord) (topic : Option String) :
    (createContextFromModels models topic).top_models =
      (sortByLikesDesc (topicFilter topic models)).take 10 ∧
    (createContextFromModels models topic).top_models.length ≤ 10 ∧
    List.Pairwise likesDesc (createContextFromModels models topic).top_models ∧
    (sortByLikesDesc (topicFilter topic models)).Perm (topicFilter topic models) ∧
    (∀ v : Int,
      (sortByLikesDesc (topicFilter topic models)).filter (fun m => m.likes == v) =
        (topicFilter topic models).filter (fun m => m.likes == v)) := by
  refine ⟨rfl, List.length_take_le _ _, ?_, List.perm_insertionSort likesDesc _, ?_⟩
  · have hs : List.Sorted likesDesc (sortByLikesDesc (topicFilter topic models)) :=
      List.sorted_insertionSort likesDesc _
    exact List.Pairwise.sublist (List.take_sublist _ _) hs
  · intro v
    refine filter_insertionSort likesDesc _ ?_ _
    intro a b ha hb
    have ha2 : a.likes = v := by simpa using ha
    have hb2 : b.likes = v := by simpa using hb
    unfold likesDesc
    rw [ha2, hb2]

/-- C9: the averages are the sums divided by the filtered count when that
count is positive and are exactly 0 when it is 0; the aggregator is a
total function, so no division-by-zero fault is possible. -/
theorem C9_average_safe (models : List ModelRecord) (topic : Option String) :
    ((createContextFromModels models topic).total_models = 0 →
      (createContextFromModels models topic).average_likes = 0 ∧
      (createContextFromModels models topic).average_downloads = 0) ∧
    (0 < (createContextFromModels models topic).total_models →
      (createContextFromModels models topic).average_likes =
        ((createContextFromModels models topic).total_likes : ℚ) /
          ((createContextFromModels models topic).total_models : ℚ) ∧
      (createContextFromModels models topic).average_downloads =
        ((createContextFromModels models topic).total_downloads : ℚ) /
          ((createContextFromModels models topic).total_models : ℚ)) := by
  have e1 : (createContextFromModels models topic).total_models =
      (topicFilter topic models).length := rfl
  have e2 : (createContextFromModels models topic).average_likes =
      (if 0 < (topicFilter topic models).length
        then ((((topicFilter topic models).map (fun m => m.likes)).sum : Int) : ℚ) /
          (((topicFilter topic models).length : Nat) : ℚ)
        else 0) := rfl
  have e3 : (createContextFromModels models topic).average_downloads =
      (if 0 < (topicFilter topic models).length
        then ((((topicFilter topic models).map (fun m => m.downloads)).sum : Int) : ℚ) /
          (((topicFilter topic models).length : Nat) : ℚ)
        else 0) := rfl
  have e4 : (createContextFromModels models topic).total_likes =
      ((topicFilter topic models).map (fun m => m.likes)).sum := rfl
  have e5 : (createContextFromModels models topic).total_downloads =
      ((topicFilter topic models).map (fun m => m.downloads)).sum := rfl
  constructor
  · intro h0
    rw [e1] at h0
    constructor
    · rw [e2, h0]; simp
    · rw [e3, h0]; simp
  · intro hpos
    rw [e1] at hpos
    constructor
    · rw [e2, e4, e1, if_pos hpos]
    · rw [e3, e5, e1, if_pos hpos]

/-- C9 witness: concretely, an empty record list yields averages exactly
0, and a one-record list yields averages equal to sum over count. -/
theorem C9_average_safe_witness :
    ((createContextFromModels [] none).average_likes = 0 ∧
      (createContextFromModels [] none).average_downloads = 0) ∧
    ((createContextFromModels [getModelInfo fetchC6 "orgA/m1"] none).average_likes =
        ((createContextFromModels [getModelInfo fetchC6 "orgA/m1"] none).total_likes : ℚ) /
          ((createContextFromModels [getModelInfo fetchC6 "orgA/m1"] none).total_models : ℚ) ∧
      (createContextFromModels [getModelInfo fetchC6 "orgA/m1"] none).average_downloads =
        ((createContextFromModels [getModelInfo fetchC6 "orgA/m1"] none).total_downloads : ℚ) /
          ((createContextFromModels [getModelInfo fetchC6 "orgA/m1"] none).total_models : ℚ)) :=
  ⟨(C9_average_safe [] none).1 rfl,
    (C9_average_safe [getModelInfo fetchC6 "orgA/m1"] none).2 (by decide)⟩

/-! Claim C10: the aggregator mutates nothing.  Python record dicts live
on a heap and are passed by reference; the heap is modelled explicitly as
a list of records addressed by index, the aggregator's input list as a
list of indices, and every field access in `create_context_from_models`
as a heap read.  The source contains no store into a record or into the
input list (it builds fresh lists and a fresh dict), so the embedded
version threads the heap through unchanged; the theorem also checks that
the reference-level run agrees with the value-level `createContextFromModels`
once reads are applied. -/

/-- Dereference a record pointer. -/
def heapRead (h : List ModelRecord) (r : Nat) : ModelRecord := h.getD r default

/-- The context dict with `top_models`/`models` holding references, as the
Python dict does. -/
structure ContextReportRef where
  topic : String
  total_models : Nat
  total_likes : Int
  total_downloads : Int
  average_likes : ℚ
  average_downloads : ℚ
  top_models : List Nat
  pipeline_tags : List String
  models : List Nat
deriving Repr, DecidableEq

/-- Descending-likes comparison on references. -/
def likesDescRef (h : List ModelRecord) (a b : Nat) : Prop :=
  (heapRead h b).likes ≤ (heapRead h a).likes

instance (h : List ModelRecord) : DecidableRel (likesDescRef h) :=
  fun a b => Int.decLe (heapRead h b).likes (heapRead h a).likes

/-- The topic-filter step over references. -/
def stFiltered (h : List ModelRecord) (refs : List Nat) (topic : Option String) :
    List Nat :=
  let t := topic.getD ""
  if t = "" then refs else refs.filter (fun r => matchesTopic t.toLower (heapRead h r))

/-- `create_context_from_models` with the heap explicit: every statement
of the source is a heap read; the final heap is returned alongside the
context. -/
def createContextFromModelsST (h : List ModelRecord) (refs : List Nat)
    (topic : Option String) : ContextReportRef × List ModelRecord :=
  let t := topic.getD ""
  let filtered := stFiltered h refs topic
  let total_models := filtered.length
  let total_likes := (filtered.map (fun r => (heapRead h r).likes)).sum
  let total_downloads := (filtered.map (fun r => (heapRead h r).downloads)).sum
  ({ topic := if t = "" then "all" else t
     total_models := total_models
     total_likes := total_likes
     total_downloads := total_downloads
     average_likes :=
       if 0 < total_models then (total_likes : ℚ) / (total_models : ℚ) else 0
     average_downloads :=
       if 0 < total_models then (total_downloads : ℚ) / (total_models : ℚ) else 0
     top_models := (List.insertionSort (likesDescRef h) filtered).take 10
     pipeline_tags :=
       dedupFS [] (filtered.filterMap
         (fun r => if (heapRead h r).pipeline_tag = "" then none
           else some (heapRead h r).pipeline_tag))
     models := filtered }, h)

lemma map_filter_comp {α β : Type} (f : α → β) (p : β → Bool) :
    ∀ l : List α, (l.filter (fun x => p (f x))).map f = (l.map f).filter p := by
  intro l
  induction l with
  | nil => rfl
  | cons a l ih =>
    by_cases hp : p (f a) <;> simp [List.filter_cons, hp, ih]

lemma filterMap_map_comp {α β γ : Type} (f : α → β) (g : β → Option γ) :
    ∀ l : List α, (l.map f).filterMap g = l.filterMap (fun x => g (f x)) := by
  intro l
  induction l with
  | nil => rfl
  | cons a l ih => cases hg : g (f a) <;> simp [List.filterMap_cons, hg, ih]

lemma map_orderedInsert {α β : Type} (f : α → β) (r : α → α → Prop) (s : β → β → Prop)
    [DecidableRel r] [DecidableRel s] (hc : ∀ a b, r a b ↔ s (f a) (f b)) (a : α) :
    ∀ l, (List.orderedInsert r a l).map f = List.orderedInsert s (f a) (l.map f) := by
  intro l
  induction l with
  | nil => rfl
  | cons b l ih =>
    rw [List.orderedInsert, List.map_cons, List.orderedInsert]
    by_cases hr : r a b
    · rw [if_pos hr, if_pos ((hc a b).mp hr)]
      rfl
    · rw [if_neg hr, if_neg (fun hs => hr ((hc a b).mpr hs))]
      rw [List.map_cons, ih]

lemma map_insertionSort {α β : Type} (f : α → β) (r : α → α → Prop) (s : β → β → Prop)
    [DecidableRel r] [DecidableRel s] (hc : ∀ a b, r a b ↔ s (f a) (f b)) :
    ∀ l, (List.insertionSort r l).map f = List.insertionSort s (l.map f) := by
  intro l
  induction l with
  | nil => rfl
  | cons a l ih =>
    rw [List.insertionSort, List.map_cons, List.insertionSort,
      map_orderedInsert f r s hc, ih]

lemma stFiltered_map (h : List ModelRecord) (refs : List Nat) (topic : Option String) :
    (stFiltered h refs topic).map (heapRead h) =
      topicFilter topic (refs.map (heapRead h)) := by
  unfold stFiltered topicFilter
  by_cases ht : topic.getD "" = ""
  · simp [ht]
  · rw [if_neg ht, if_neg ht, map_filter_comp]

/-- C10: the aggregator writes nothing: running it with the heap explicit
returns the heap unchanged — no record field and no input cell is
mutated — and reading the returned references back through the (unchanged)
heap reproduces exactly the value-level aggregation of the dereferenced
input, so the output is built from fresh lists, not in-place edits. -/
theorem C10_aggregator_no_mutation (h : List ModelRecord) (refs : List Nat)
    (topic : Option String) :
    (createContextFromModelsST h refs topic).2 = h ∧
    (createContextFromModelsST h refs topic).1.topic =
      (createContextFromModels (refs.map (heapRead h)) topic).topic ∧
    (createContextFromModelsST h refs topic).1.total_models =
      (createContextFromModels (refs.map (heapRead h)) topic).total_models ∧
    (createContextFromModelsST h refs topic).1.total_likes =
      (createContextFromModels (refs.map (heapRead h)) topic).total_likes ∧
    (createContextFromModelsST h refs topic).1.total_downloads =
      (createContextFromModels (refs.map (heapRead h)) topic).total_downloads ∧
    (createContextFromModelsST h refs topic).1.average_likes =
      (createContextFromModels (refs.map (heapRead h)) topic).average_likes ∧
    (createContextFromModelsST h refs topic).1.average_downloads =
      (createContextFromModels (refs.map (heapRead h)) topic).average_downloads ∧
    (createContextFromModelsST h refs topic).1.top_models.map (heapRead h) =
      (createContextFromModels (refs.map (heapRead h)) topic).top_models ∧
    (createContextFromModelsST h refs topic).1.pipeline_tags =
      (createContextFromModels (refs.map (heapRead h)) topic).pipeline_tags ∧
    (createContextFromModelsST h refs topic).1.models.map (heapRead h) =
      (createContextFromModels (refs.map (heapRead h)) topic).models := by
  have hfilt := stFiltered_map h refs topic
  have hlen : (stFiltered h refs topic).length =
      (topicFilter topic (refs.map (heapRead h))).length := by
    rw [← hfilt, List.length_map]
  have hlikes : ((stFiltered h refs topic).map (fun r => (heapRead h r).likes)).sum =
      ((topicFilter topic (refs.map (heapRead h))).map (fun m => m.likes)).sum := by
    rw [← hfilt, List.map_map]
    rfl
  have hdl : ((stFiltered h refs topic).map (fun r => (heapRead h r).downloads)).sum =
      ((topicFilter topic (refs.map (heapRead h))).map (fun m => m.downloads)).sum := by
    rw [← hfilt, List.map_map]
    rfl
  refine ⟨rfl, rfl, hlen, hlikes, hdl, ?_, ?_, ?_, ?_, hfilt⟩
  · show (if 0 < (stFiltered h refs topic).length
        then (((stFiltered h refs topic).map (fun r => (heapRead h r).likes)).sum : ℚ) /
          ((stFiltered h refs topic).length : ℚ)
        else 0) = _
    rw [hlen, hlikes]
    rfl
  · show (if 0 < (stFiltered h refs topic).length
        then (((stFiltered h refs topic).map (fun r => (heapRead h r).downloads)).sum : ℚ) /
          ((stFiltered h refs topic).length : ℚ)
        else 0) = _
    rw [hlen, hdl]
    rfl
  · show ((List.insertionSort (likesDescRef h) (stFiltered h refs topic)).take 10).map
        (heapRead h) = _
    rw [List.map_take,
      map_insertionSort (heapRead h) (likesDescRef h) likesDesc (fun a b => Iff.rfl),
      hfilt]
    rfl
  · show dedupFS [] ((stFiltered h refs topic).filterMap
        (fun r => if (heapRead h r).pipeline_tag = "" then none
          else some (heapRead h r).pipeline_tag)) = _
    rw [← filterMap_map_comp (heapRead h)
        (fun m => if m.pipeline_tag = "" then none else some m.pipeline_tag),
      hfilt]
    rfl

/-! Claim C1: the acquisition strategy selector.  The only scrape-then-API
fallback in the repository is inlined in the two FastAPI endpoints
(`get_models`, api.py lines 140-184, and `get_context`, lines 86-137).
The two extraction modes are oracles from limit to identifier list, and
`raise HTTPException(...)` is modelled as the `httpError` constructor of
the endpoint's result. -/

/-- A FastAPI endpoint outcome: a value, or a raised `HTTPException`
carrying a status code and detail string. -/
inductive EndpointResult (α : Type) where
  | ok (val : α)
  | httpError (status : Nat) (detail : String)
deriving Repr, DecidableEq

/-- The `/models` response body: enriched records with a count, or plain
identifiers with a count (api.py lines 172-178). -/
inductive ModelsResponse where
  | enriched (models : List ModelRecord) (count : Nat)
  | plain (model_ids : List String) (count : Nat)
deriving Repr, DecidableEq

/-- The shared selector step (api.py lines 159-164 and 105-110): try
HTML-mode extraction; exactly when it returns no identifiers, call
API-mode extraction once with the same limit.  The second component
instruments how many times API-mode extraction was invoked. -/
def selectModelIds (htmlIds apiIds : Nat → List String) (limit : Nat) :
    List String × Nat :=
  let ids := htmlIds limit
  if ids.isEmpty then (apiIds limit, 1) else (ids, 0)

/-- The `/models` endpoint `get_models` (api.py lines 140-184). -/
def getModelsEndpoint (htmlIds apiIds : Nat → List String) (fetch : String → Fetch)
    (limit : Nat) (enrich : Bool) : EndpointResult ModelsResponse :=
  let ids := (selectModelIds htmlIds apiIds limit).1
  if ids.isEmpty then
    .httpError 503 "Unable to retrieve model data from Hugging Face"
  else if enrich then
    let ms := enrichModels fetch ids
    .ok (.enriched ms ms.length)
  else
    .ok (.plain ids ids.length)

/-- The `/context` endpoint `get_context` (api.py lines 86-137). -/
def getContextEndpoint (htmlIds apiIds : Nat → List String) (fetch : String → Fetch)
    (topic : Option String) (limit : Nat) : EndpointResult ContextReport :=
  let ids := (selectModelIds htmlIds apiIds limit).1
  if ids.isEmpty then
    .httpError 503 "Unable to retrieve model data from Hugging Face"
  else
    let ms := enrichModels fetch ids
    if ms.isEmpty then .httpError 503 "Unable to enrich model data"
    else .ok (createContextFromModels ms topic)

/-- An extraction mode that yields nothing at any limit. -/
def noIds : Nat → List String := fun _ => []

/-- A detail-lookup oracle that always fails. -/
def fetchFail : String → Fetch := fun _ => .exc "down"

/-- C1 counterexample: when both extraction modes yield zero identifiers,
the endpoints do not return an empty sequence to the caller — they raise
a 503 `HTTPException`. -/
theorem C1_selector_counterexample :
    getModelsEndpoint noIds noIds fetchFail 20 false =
      .httpError 503 "Unable to retrieve model data from Hugging Face" ∧
    getModelsEndpoint noIds noIds fetchFail 20 false ≠ .ok (.plain [] 0) ∧
    getContextEndpoint noIds noIds fetchFail none 20 =
      .httpError 503 "Unable to retrieve model data from Hugging Face" := by
  refine ⟨rfl, by decide, rfl⟩

/-- C1 (amended): for every limit the selector attempts HTML-mode
extraction first and returns its result untouched when it is non-empty
(API mode is not invoked); exactly when HTML mode yields zero
identifiers, API-mode extraction is invoked exactly once with the same
limit; and when both modes yield zero identifiers the endpoints raise an
HTTP 503 service-unavailable error to the caller instead of returning an
empty sequence. -/
theorem C1_selector_fallback (htmlIds apiIds : Nat → List String)
    (fetch : String → Fetch) (limit : Nat) (enrich : Bool) (topic : Option String) :
    (htmlIds limit ≠ [] →
      selectModelIds htmlIds apiIds limit = (htmlIds limit, 0)) ∧
    (htmlIds limit = [] →
      selectModelIds htmlIds apiIds limit = (apiIds limit, 1)) ∧
    (htmlIds limit = [] → apiIds limit = [] →
      getModelsEndpoint htmlIds apiIds fetch limit enrich =
        .httpError 503 "Unable to retrieve model data from Hugging Face" ∧
      getContextEndpoint htmlIds apiIds fetch topic limit =
        .httpError 503 "Unable to retrieve model data from Hugging Face") := by
  refine ⟨?_, ?_, ?_⟩
  · intro hne
    unfold selectModelIds
    rw [if_neg (by simpa [List.isEmpty_iff] using hne)]
  · intro he
    unfold selectModelIds
    rw [if_pos (by simpa [List.isEmpty_iff] using he)]
  · intro he ha
    have hsel : selectModelIds htmlIds apiIds limit = (apiIds limit, 1) := by
      unfold selectModelIds
      rw [if_pos (by simpa [List.isEmpty_iff] using he)]
    constructor
    · unfold getModelsEndpoint
      rw [hsel]
      rw [if_pos (by simpa [List.isEmpty_iff] using ha)]
    · unfold getContextEndpoint
      rw [hsel]
      rw [if_pos (by simpa [List.isEmpty_iff] using ha)]

/-- C1 witness: concretely, an HTML mode yielding two identifiers is
returned as-is with zero API calls, and an empty HTML mode falls back to
the API result with exactly one API call. -/
theorem C1_selector_fallback_witness :
    selectModelIds (fun _ => ["a/b", "c/d"]) (fun _ => ["x/y"]) 20 =
      (["a/b", "c/d"], 0) ∧
    selectModelIds noIds (fun _ => ["x/y"]) 20 = (["x/y"], 1) ∧
    getModelsEndpoint noIds noIds fetchFail 20 true =
      .httpError 503 "Unable to retrieve model data from Hugging Face" :=
  ⟨(C1_selector_fallback (fun _ => ["a/b", "c/d"]) (fun _ => ["x/y"]) fetchFail 20
      true none).1 (by decide),
    (C1_selector_fallback noIds (fun _ => ["x/y"]) fetchFail 20 true none).2.1 rfl,
    ((C1_selector_fallback noIds noIds fetchFail 20 true none).2.2 rfl rfl).1⟩

end RAG
